import Mathlib

/-
Verification of the tslint rule no-undefined-or-null-comparison
(src/src/rules/noUndefinedOrNullComparisonRule.ts).

The rule scans a TypeScript syntax tree for equality-family binary
expressions whose operands are the null literal or the bare identifier
"undefined", and emits a lint failure per offending operand, subject to
two allowance flags.

The syntax tree is shallowly embedded per the interface the rule needs
from the parser (spec section 3): children, binary-expression shape with
operator token and operands, null-literal test, identifier text, and a
source span per node.
-/

namespace NoUndefinedOrNullComparison

/-- Binary operator tokens. The four equality-family tokens are those
the rule reacts to; a sample of other TypeScript binary operator tokens
is included so that non-equality expressions are representable. -/
inductive Op where
  | EqualsEquals
  | ExclamationEquals
  | EqualsEqualsEquals
  | ExclamationEqualsEquals
  | LessThan
  | GreaterThan
  | EqualsAssign
  | Plus
  | AmpersandAmpersand
  deriving DecidableEq, Repr

/-- Syntax-tree nodes, embedding the capabilities the rule uses:
the null-literal token, identifiers with their text, binary expressions
with operator token and two operands, and every other node shape
collapsed to an opaque node with an ordered child list. Every node
carries its source span as a pair of positions. -/
inductive Node where
  | nullKeyword (pos endPos : Nat)
  | identifier (text : String) (pos endPos : Nat)
  | binaryExpression (left : Node) (operatorToken : Op) (right : Node) (pos endPos : Nat)
  | otherNode (children : List Node) (pos endPos : Nat)

/-- A source file is the scan root; the walk tests only its descendants,
never the root itself (ts.forEachChild starts at the children). -/
structure SourceFile where
  statements : List Node

/-- The Options interface of the rule: allowNull and allowUndefined. -/
structure Options where
  allowNull : Bool
  allowUndefined : Bool
  deriving DecidableEq, Repr

/-- A reported lint failure: the source span it is attached to and its
failure message. -/
structure Finding where
  pos : Nat
  endPos : Nat
  message : String
  deriving DecidableEq, Repr

/-- Start position of a node's source span. -/
def Node.nodePos : Node → Nat
  | .nullKeyword p _ => p
  | .identifier _ p _ => p
  | .binaryExpression _ _ _ p _ => p
  | .otherNode _ p _ => p

/-- End position of a node's source span. -/
def Node.nodeEnd : Node → Nat
  | .nullKeyword _ e => e
  | .identifier _ _ e => e
  | .binaryExpression _ _ _ _ e => e
  | .otherNode _ _ e => e

/-- Test for node.kind === ts.SyntaxKind.NullKeyword. -/
def isNullKeyword : Node → Bool
  | .nullKeyword _ _ => true
  | _ => false

/-- Test for ts.isIdentifier(node) and node.text === "undefined". -/
def isUndefinedIdentifier : Node → Bool
  | .identifier t _ _ => t == "undefined"
  | _ => false

/-- EqualsKind as returned by the lint library for an equality-family
operator token: positive (equals) or negative (not-equals), strict
(triple) or loose (double). -/
structure EqualsKind where
  isPositive : Bool
  isStrict : Bool
  deriving DecidableEq, Repr

/-- Modelled from the spec: Lint.getEqualsKind lives in the lint
library, outside src/. Per the spec (sections 4.1 and the glossary),
exactly the four equality-family operators ==, !=, ===, !== yield a
defined EqualsKind; every other operator token yields undefined. -/
def getEqualsKind : Op → Option EqualsKind
  | .EqualsEquals => some ⟨true, false⟩
  | .ExclamationEquals => some ⟨false, false⟩
  | .EqualsEqualsEquals => some ⟨true, true⟩
  | .ExclamationEqualsEquals => some ⟨false, true⟩
  | _ => none

/-- The InvalidOperand result type of getInvalidOperands. -/
inductive InvalidOperand where
  | Both
  | Left
  | Right
  | None
  deriving DecidableEq, Repr

/-- getInvalidOperands, translated from the source: an operand is
invalid when it is the identifier "undefined" and allowUndefined is
false, or the null keyword and allowNull is false; the two per-operand
booleans are combined into the four-state verdict. -/
def getInvalidOperands (nodeLeft nodeRight : Node) (options : Options) : InvalidOperand :=
  let leftInvalid :=
    (isUndefinedIdentifier nodeLeft && !options.allowUndefined) ||
    (isNullKeyword nodeLeft && !options.allowNull)
  let rightInvalid :=
    (isUndefinedIdentifier nodeRight && !options.allowUndefined) ||
    (isNullKeyword nodeRight && !options.allowNull)
  if leftInvalid && rightInvalid then .Both
  else if leftInvalid then .Left
  else if rightInvalid then .Right
  else .None

/-- Rule.FAILURE_STRING_FACTORY, translated from the source: the
message names null exactly when the node is the null keyword, and
undefined otherwise. -/
def FAILURE_STRING_FACTORY (node : Node) : String :=
  if isNullKeyword node then "Comparison operand is null"
  else "Comparison operand is undefined"

/-- Modelled from the spec: ctx.addFailureAtNode belongs to the lint
host, outside src/. Per the spec (section 4.1 step 5) the resulting
Finding carries the exact source span of the node it is attached to,
plus the message. -/
def addFailureAtNode (node : Node) (message : String) : Finding :=
  { pos := node.nodePos, endPos := node.nodeEnd, message := message }

mutual
/-- The cb callback of walk, translated from the source: at a binary
expression whose operator has a defined EqualsKind, add a failure at
the left operand when the verdict is Both or Left, then at the right
operand when the verdict is Both or Right; in every case continue into
the children in order (for a binary expression: left then right; the
operator token has no children and never matches). -/
def cb (options : Options) : Node → List Finding
  | .nullKeyword _ _ => []
  | .identifier _ _ _ => []
  | .binaryExpression l op r _ _ =>
      (if (getEqualsKind op).isSome then
        let invalidOperands := getInvalidOperands l r options
        (if invalidOperands = .Both ∨ invalidOperands = .Left then
          [addFailureAtNode l (FAILURE_STRING_FACTORY l)] else []) ++
        (if invalidOperands = .Both ∨ invalidOperands = .Right then
          [addFailureAtNode r (FAILURE_STRING_FACTORY r)] else [])
      else []) ++ (cb options l ++ cb options r)

  | .otherNode cs _ _ => cbList options cs

/-- ts.forEachChild applied to a child list: visit each child with cb
in order, concatenating the failures. -/
def cbList (options : Options) : List Node → List Finding
  | [] => []
  | n :: ns => cb options n ++ cbList options ns
end

/-- walk, translated from the source: ts.forEachChild(ctx.sourceFile,
cb), i.e. cb over the source file's children. -/
def walk (sourceFile : SourceFile) (options : Options) : List Finding :=
  cbList options sourceFile.statements

/-- Rule.apply resolves the raw rule arguments into Options via
indexOf presence tests, then runs walk. -/
def parseRuleArguments (ruleArguments : List String) : Options :=
  { allowNull := ruleArguments.contains "allow-null-check",
    allowUndefined := ruleArguments.contains "allow-undefined-check" }

/-- Rule.apply, translated from the source. -/
def ruleApply (sourceFile : SourceFile) (ruleArguments : List String) : List Finding :=
  walk sourceFile (parseRuleArguments ruleArguments)

mutual
/-- Pre-order (depth-first, node before children, children left to
right) list of all nodes of a subtree. -/
def preorder : Node → List Node
  | .nullKeyword p e => [.nullKeyword p e]
  | .identifier t p e => [.identifier t p e]
  | .binaryExpression l op r p e =>
      .binaryExpression l op r p e :: (preorder l ++ preorder r)
  | .otherNode cs p e => .otherNode cs p e :: preorderList cs

/-- Pre-order node list of a forest, left to right. -/
def preorderList : List Node → List Node
  | [] => []
  | n :: ns => preorder n ++ preorderList ns
end

/-- The per-operand invalidity test of getInvalidOperands, factored
out: identifier "undefined" with allowUndefined off, or null keyword
with allowNull off. -/
def operandInvalid (n : Node) (options : Options) : Bool :=
  (isUndefinedIdentifier n && !options.allowUndefined) ||
  (isNullKeyword n && !options.allowNull)

/-- The findings one visited node contributes, in emission order: for
an equality-family binary expression, the left operand's failure when
the left operand is invalid, then the right operand's; nothing for any
other node. -/
def nodeFindings (options : Options) : Node → List Finding
  | .binaryExpression l op r _ _ =>
      if (getEqualsKind op).isSome then
        (if operandInvalid l options then
          [addFailureAtNode l (FAILURE_STRING_FACTORY l)] else []) ++
        (if operandInvalid r options then
          [addFailureAtNode r (FAILURE_STRING_FACTORY r)] else [])
      else []
  | _ => []

mutual
/-- Number of nodes in a subtree. -/
def nodeCount : Node → Nat
  | .nullKeyword _ _ => 1
  | .identifier _ _ _ => 1
  | .binaryExpression l _ r _ _ => 1 + (nodeCount l + nodeCount r)
  | .otherNode cs _ _ => 1 + nodeCountList cs

/-- Number of nodes in a forest. -/
def nodeCountList : List Node → Nat
  | [] => 0
  | n :: ns => nodeCount n + nodeCountList ns
end

mutual
/-- Modelled from the spec: the walk context of the lint host owns the
accumulated failure list, and ctx.addFailureAtNode appends to it. This
is cb in accumulator-passing style: the context's failure list is
threaded through the traversal explicitly. -/
def cbAcc (options : Options) : Node → List Finding → List Finding
  | .nullKeyword _ _, acc => acc
  | .identifier _ _ _, acc => acc
  | .binaryExpression l op r _ _, acc =>
      let acc1 :=
        if (getEqualsKind op).isSome then
          let invalidOperands := getInvalidOperands l r options
          let accL :=
            if invalidOperands = .Both ∨ invalidOperands = .Left then
              acc ++ [addFailureAtNode l (FAILURE_STRING_FACTORY l)] else acc
          if invalidOperands = .Both ∨ invalidOperands = .Right then
            accL ++ [addFailureAtNode r (FAILURE_STRING_FACTORY r)] else accL
        else acc
      cbAcc options r (cbAcc options l acc1)
  | .otherNode cs _ _, acc => cbAccList options cs acc

/-- Accumulator-passing visit of a child list. -/
def cbAccList (options : Options) : List Node → List Finding → List Finding
  | [], acc => acc
  | n :: ns, acc => cbAccList options ns (cbAcc options n acc)
end

/-- walk in accumulator-passing style, started from the failure list a
walk context carries when the scan begins. -/
def walkAcc (sourceFile : SourceFile) (options : Options) (acc : List Finding) : List Finding :=
  cbAccList options sourceFile.statements acc

/- Helper lemmas bridging the verdict combination of getInvalidOperands
back to the two independent per-operand tests. -/

theorem invalidOperands_left_iff (l r : Node) (options : Options) :
    (getInvalidOperands l r options = .Both ∨ getInvalidOperands l r options = .Left) ↔
      operandInvalid l options = true := by
  unfold getInvalidOperands operandInvalid
  cases hl : (isUndefinedIdentifier l && !options.allowUndefined) ||
      (isNullKeyword l && !options.allowNull) <;>
    cases hr : (isUndefinedIdentifier r && !options.allowUndefined) ||
      (isNullKeyword r && !options.allowNull) <;>
    simp [hl, hr]

theorem invalidOperands_right_iff (l r : Node) (options : Options) :
    (getInvalidOperands l r options = .Both ∨ getInvalidOperands l r options = .Right) ↔
      operandInvalid r options = true := by
  unfold getInvalidOperands operandInvalid
  cases hl : (isUndefinedIdentifier l && !options.allowUndefined) ||
      (isNullKeyword l && !options.allowNull) <;>
    cases hr : (isUndefinedIdentifier r && !options.allowUndefined) ||
      (isNullKeyword r && !options.allowNull) <;>
    simp [hl, hr]

/-- The findings cb emits at one binary expression are exactly the
nodeFindings of that node. -/
theorem cb_binary_head (options : Options) (l : Node) (op : Op) (r : Node) (p e : Nat) :
    cb options (.binaryExpression l op r p e) =
      nodeFindings options (.binaryExpression l op r p e) ++ (cb options l ++ cb options r) := by
  rw [cb, nodeFindings]
  cases hk : (getEqualsKind op).isSome
  · simp [hk]
  · simp only [hk, if_true]
    congr 1
    congr 1
    · by_cases hBL : getInvalidOperands l r options = .Both ∨ getInvalidOperands l r options = .Left
      · rw [if_pos hBL, if_pos ((invalidOperands_left_iff l r options).mp hBL)]
      · rw [if_neg hBL,
          if_neg (fun hc => hBL ((invalidOperands_left_iff l r options).mpr hc))]
    · by_cases hBR : getInvalidOperands l r options = .Both ∨ getInvalidOperands l r options = .Right
      · rw [if_pos hBR, if_pos ((invalidOperands_right_iff l r options).mp hBR)]
      · rw [if_neg hBR,
          if_neg (fun hc => hBR ((invalidOperands_right_iff l r options).mpr hc))]

mutual
/-- cb equals the concatenation, over the pre-order node list of the
subtree, of the per-node findings. -/
theorem cb_eq_preorder (options : Options) (n : Node) :
    cb options n = (preorder n).flatMap (nodeFindings options) := by
  match n with
  | .nullKeyword p e => rfl
  | .identifier t p e => rfl
  | .binaryExpression l op r p e =>
      rw [cb_binary_head, preorder, List.flatMap_cons, List.flatMap_append,
        cb_eq_preorder options l, cb_eq_preorder options r]
  | .otherNode cs p e =>
      rw [cb, preorder, List.flatMap_cons, cbList_eq_preorder options cs]
      rfl

/-- cbList equals the concatenation, over the pre-order node list of
the forest, of the per-node findings. -/
theorem cbList_eq_preorder (options : Options) (ns : List Node) :
    cbList options ns = (preorderList ns).flatMap (nodeFindings options) := by
  match ns with
  | [] => rfl
  | n :: ns =>
      rw [cbList, preorderList, List.flatMap_append,
        cb_eq_preorder options n, cbList_eq_preorder options ns]
end

/-- Spec-side wording of per-operand invalidity: the operand is
syntactically the null literal and allowNull is false, or the bare
identifier undefined and allowUndefined is false. -/
def specInvalid (n : Node) (options : Options) : Prop :=
  (isNullKeyword n = true ∧ options.allowNull = false) ∨
  (isUndefinedIdentifier n = true ∧ options.allowUndefined = false)

/-- Spec-side wording of the operator condition: the operator is one of
the four equality-family operators. -/
def isEqualityFamily (op : Op) : Prop :=
  op = .EqualsEquals ∨ op = .ExclamationEquals ∨
  op = .EqualsEqualsEquals ∨ op = .ExclamationEqualsEquals

theorem specInvalid_iff (n : Node) (options : Options) :
    specInvalid n options ↔ operandInvalid n options = true := by
  unfold specInvalid operandInvalid
  cases hn : isNullKeyword n <;> cases hu : isUndefinedIdentifier n <;>
    cases ha : options.allowNull <;> cases hb : options.allowUndefined <;>
    simp [hn, hu, ha, hb]

theorem isEqualityFamily_iff (op : Op) :
    isEqualityFamily op ↔ (getEqualsKind op).isSome = true := by
  unfold isEqualityFamily
  cases op <;> simp [getEqualsKind]

theorem operandInvalid_shapes {n : Node} {options : Options}
    (h : operandInvalid n options = true) :
    isNullKeyword n = true ∨ isUndefinedIdentifier n = true := by
  unfold operandInvalid at h
  simp only [Bool.or_eq_true, Bool.and_eq_true] at h
  rcases h with ⟨h1, _⟩ | ⟨h1, _⟩
  · exact Or.inr h1
  · exact Or.inl h1

theorem not_null_of_undefined {n : Node} (h : isUndefinedIdentifier n = true) :
    isNullKeyword n = false := by
  cases n <;> simp_all [isUndefinedIdentifier, isNullKeyword]

/-- Membership in the findings one node contributes, characterized. -/
theorem mem_nodeFindings_iff (options : Options) (n : Node) (f : Finding) :
    f ∈ nodeFindings options n ↔
      ∃ l op r p e, n = Node.binaryExpression l op r p e ∧
        (getEqualsKind op).isSome = true ∧
        ((operandInvalid l options = true ∧ f = addFailureAtNode l (FAILURE_STRING_FACTORY l)) ∨
         (operandInvalid r options = true ∧ f = addFailureAtNode r (FAILURE_STRING_FACTORY r))) := by
  match n with
  | .nullKeyword p e => simp [nodeFindings]
  | .identifier t p e => simp [nodeFindings]
  | .otherNode cs p e => simp [nodeFindings]
  | .binaryExpression l op r p e =>
      constructor
      · intro hf
        refine ⟨l, op, r, p, e, rfl, ?_⟩
        rw [nodeFindings] at hf
        by_cases hk : (getEqualsKind op).isSome = true
        · rw [if_pos hk] at hf
          refine ⟨hk, ?_⟩
          rcases List.mem_append.mp hf with h | h
          · by_cases hL : operandInvalid l options = true
            · rw [if_pos hL] at h
              exact Or.inl ⟨hL, List.mem_singleton.mp h⟩
            · rw [if_neg hL] at h
              exact absurd h (List.not_mem_nil f)
          · by_cases hR : operandInvalid r options = true
            · rw [if_pos hR] at h
              exact Or.inr ⟨hR, List.mem_singleton.mp h⟩
            · rw [if_neg hR] at h
              exact absurd h (List.not_mem_nil f)
        · rw [if_neg hk] at hf
          exact absurd hf (List.not_mem_nil f)
      · rintro ⟨l2, op2, r2, p2, e2, heq, hk, hor⟩
        obtain ⟨rfl, rfl, rfl, rfl, rfl⟩ := Node.binaryExpression.inj heq
        rw [nodeFindings, if_pos hk]
        rcases hor with ⟨hL, rfl⟩ | ⟨hR, rfl⟩
        · exact List.mem_append.mpr
            (Or.inl (by rw [if_pos hL]; exact List.mem_singleton.mpr rfl))
        · exact List.mem_append.mpr
            (Or.inr (by rw [if_pos hR]; exact List.mem_singleton.mpr rfl))

/-- Membership in the scan output, characterized over the pre-order
node list. -/
theorem mem_walk_iff (sourceFile : SourceFile) (options : Options) (f : Finding) :
    f ∈ walk sourceFile options ↔
      ∃ l op r p e,
        Node.binaryExpression l op r p e ∈ preorderList sourceFile.statements ∧
        (getEqualsKind op).isSome = true ∧
        ((operandInvalid l options = true ∧ f = addFailureAtNode l (FAILURE_STRING_FACTORY l)) ∨
         (operandInvalid r options = true ∧ f = addFailureAtNode r (FAILURE_STRING_FACTORY r))) := by
  rw [walk, cbList_eq_preorder, List.mem_flatMap]
  constructor
  · rintro ⟨n, hn, hf⟩
    rcases (mem_nodeFindings_iff options n f).mp hf with ⟨l, op, r, p, e, rfl, hrest⟩
    exact ⟨l, op, r, p, e, hn, hrest⟩
  · rintro ⟨l, op, r, p, e, hn, hrest⟩
    exact ⟨_, hn, (mem_nodeFindings_iff options _ f).mpr ⟨l, op, r, p, e, rfl, hrest⟩⟩

mutual
/-- The accumulator-passing traversal only appends to the context's
failure list, and what it appends is exactly cb's output. -/
theorem cbAcc_eq (options : Options) (n : Node) (acc : List Finding) :
    cbAcc options n acc = acc ++ cb options n := by
  match n with
  | .nullKeyword p e => simp [cbAcc, cb]
  | .identifier t p e => simp [cbAcc, cb]
  | .binaryExpression l op r p e =>
      simp only [cbAcc, cb]
      rw [cbAcc_eq options r, cbAcc_eq options l]
      by_cases hk : (getEqualsKind op).isSome = true
      · by_cases hBL : getInvalidOperands l r options = .Both ∨
            getInvalidOperands l r options = .Left <;>
          by_cases hBR : getInvalidOperands l r options = .Both ∨
            getInvalidOperands l r options = .Right <;>
          simp [hk, hBL, hBR]
      · simp [hk]
  | .otherNode cs p e =>
      rw [cbAcc, cb]
      exact cbAccList_eq options cs acc

/-- Accumulator-passing child-list visit, related to cbList. -/
theorem cbAccList_eq (options : Options) (ns : List Node) (acc : List Finding) :
    cbAccList options ns acc = acc ++ cbList options ns := by
  match ns with
  | [] => simp [cbAccList, cbList]
  | n :: ns =>
      rw [cbAccList, cbList, cbAccList_eq options ns, cbAcc_eq options n,
        List.append_assoc]
end

/-- One visited node contributes at most two findings. -/
theorem nodeFindings_length_le (options : Options) (n : Node) :
    (nodeFindings options n).length ≤ 2 := by
  match n with
  | .nullKeyword p e => simp [nodeFindings]
  | .identifier t p e => simp [nodeFindings]
  | .otherNode cs p e => simp [nodeFindings]
  | .binaryExpression l op r p e =>
      rw [nodeFindings]
      by_cases hk : (getEqualsKind op).isSome = true
      · rw [if_pos hk]
        cases hL : operandInvalid l options <;> cases hR : operandInvalid r options <;>
          simp [hL, hR]
      · rw [if_neg hk]; simp

mutual
/-- The pre-order node list enumerates each node of the subtree exactly
once: its length is the node count. -/
theorem preorder_length (n : Node) : (preorder n).length = nodeCount n := by
  match n with
  | .nullKeyword p e => rfl
  | .identifier t p e => rfl
  | .binaryExpression l op r p e =>
      rw [preorder, nodeCount, List.length_cons, List.length_append,
        preorder_length l, preorder_length r, Nat.add_comm]
  | .otherNode cs p e =>
      rw [preorder, nodeCount, List.length_cons, preorderList_length cs,
        Nat.add_comm]

/-- Pre-order forest list length equals the forest node count. -/
theorem preorderList_length (ns : List Node) :
    (preorderList ns).length = nodeCountList ns := by
  match ns with
  | [] => rfl
  | n :: ns =>
      rw [preorderList, nodeCountList, List.length_append, preorder_length n,
        preorderList_length ns]
end

mutual
/-- The findings of a subtree number at most twice its node count. -/
theorem cb_length_le (options : Options) (n : Node) :
    (cb options n).length ≤ 2 * nodeCount n := by
  match n with
  | .nullKeyword p e => simp [cb, nodeCount]
  | .identifier t p e => simp [cb, nodeCount]
  | .binaryExpression l op r p e =>
      rw [cb_binary_head]
      have h1 := nodeFindings_length_le options (.binaryExpression l op r p e)
      have h2 := cb_length_le options l
      have h3 := cb_length_le options r
      simp only [List.length_append, nodeCount] at h1 ⊢
      omega
  | .otherNode cs p e =>
      rw [cb]
      have h := cbList_length_le options cs
      simp only [nodeCount]
      omega

/-- The findings of a forest number at most twice its node count. -/
theorem cbList_length_le (options : Options) (ns : List Node) :
    (cbList options ns).length ≤ 2 * nodeCountList ns := by
  match ns with
  | [] => simp [cbList, nodeCountList]
  | n :: ns =>
      rw [cbList, nodeCountList]
      have h1 := cb_length_le options n
      have h2 := cbList_length_le options ns
      simp only [List.length_append]
      omega
end

theorem filter_flatMap_comm {α β : Type} (xs : List α) (g : α → List β) (p : β → Bool) :
    (xs.flatMap g).filter p = xs.flatMap fun x => (g x).filter p := by
  induction xs with
  | nil => rfl
  | cons x xs ih => rw [List.flatMap_cons, List.flatMap_cons, List.filter_append, ih]

theorem undef_msg_beq_null_msg :
    (("Comparison operand is undefined" : String) == "Comparison operand is null") = false := by
  decide

theorem null_msg_beq_undef_msg :
    (("Comparison operand is null" : String) == "Comparison operand is undefined") = false := by
  decide

/-- Turning allowNull on drops exactly the failure a null-literal
operand would contribute, and leaves any other operand contribution
unchanged; stated against the default allowNull = false with the
allowUndefined flag arbitrary. -/
theorem operand_filter_null (x : Node) (au : Bool) :
    (if operandInvalid x ⟨true, au⟩ then
      [addFailureAtNode x (FAILURE_STRING_FACTORY x)] else []) =
    (if operandInvalid x ⟨false, au⟩ then
      [addFailureAtNode x (FAILURE_STRING_FACTORY x)] else []).filter
        (fun f => !(f.message == "Comparison operand is null")) := by
  match x with
  | .nullKeyword p e =>
      simp [operandInvalid, isNullKeyword, isUndefinedIdentifier,
        FAILURE_STRING_FACTORY, addFailureAtNode, List.filter]
  | .identifier t p e =>
      by_cases ht : (t == "undefined") = true <;> cases au <;>
        simp [operandInvalid, isNullKeyword, isUndefinedIdentifier, ht,
          FAILURE_STRING_FACTORY, addFailureAtNode, List.filter,
          undef_msg_beq_null_msg]
  | .binaryExpression l op r p e => rfl
  | .otherNode cs p e => rfl

/-- Turning allowUndefined on drops exactly the failure an
undefined-identifier operand would contribute, with allowNull
arbitrary. -/
theorem operand_filter_undef (x : Node) (an : Bool) :
    (if operandInvalid x ⟨an, true⟩ then
      [addFailureAtNode x (FAILURE_STRING_FACTORY x)] else []) =
    (if operandInvalid x ⟨an, false⟩ then
      [addFailureAtNode x (FAILURE_STRING_FACTORY x)] else []).filter
        (fun f => !(f.message == "Comparison operand is undefined")) := by
  match x with
  | .nullKeyword p e =>
      cases an <;>
        simp [operandInvalid, isNullKeyword, isUndefinedIdentifier,
          FAILURE_STRING_FACTORY, addFailureAtNode, List.filter,
          null_msg_beq_undef_msg]
  | .identifier t p e =>
      by_cases ht : (t == "undefined") = true <;>
        simp [operandInvalid, isNullKeyword, isUndefinedIdentifier, ht,
          FAILURE_STRING_FACTORY, addFailureAtNode, List.filter]
  | .binaryExpression l op r p e => rfl
  | .otherNode cs p e => rfl

/-- Per-node version of allowNull monotonicity. -/
theorem nodeFindings_allowNull (au : Bool) (n : Node) :
    nodeFindings ⟨true, au⟩ n =
      (nodeFindings ⟨false, au⟩ n).filter
        (fun f => !(f.message == "Comparison operand is null")) := by
  match n with
  | .nullKeyword p e => rfl
  | .identifier t p e => rfl
  | .otherNode cs p e => rfl
  | .binaryExpression l op r p e =>
      rw [nodeFindings, nodeFindings]
      by_cases hk : (getEqualsKind op).isSome = true
      · rw [if_pos hk, if_pos hk, List.filter_append, operand_filter_null l au,
          operand_filter_null r au]
      · rw [if_neg hk, if_neg hk]; rfl

/-- Per-node version of allowUndefined monotonicity. -/
theorem nodeFindings_allowUndefined (an : Bool) (n : Node) :
    nodeFindings ⟨an, true⟩ n =
      (nodeFindings ⟨an, false⟩ n).filter
        (fun f => !(f.message == "Comparison operand is undefined")) := by
  match n with
  | .nullKeyword p e => rfl
  | .identifier t p e => rfl
  | .otherNode cs p e => rfl
  | .binaryExpression l op r p e =>
      rw [nodeFindings, nodeFindings]
      by_cases hk : (getEqualsKind op).isSome = true
      · rw [if_pos hk, if_pos hk, List.filter_append, operand_filter_undef l an,
          operand_filter_undef r an]
      · rw [if_neg hk, if_neg hk]; rfl

/-- C1: a Finding is emitted iff it is the failure attached to an
operand of some binary expression of the tree whose operator is in the
equality family, where that operand is syntactically the null literal
with allowNull false, or the bare identifier undefined with
allowUndefined false. -/
theorem C1_emission_iff (sourceFile : SourceFile) (options : Options) (f : Finding) :
    f ∈ walk sourceFile options ↔
      ∃ l op r p e,
        Node.binaryExpression l op r p e ∈ preorderList sourceFile.statements ∧
        isEqualityFamily op ∧
        ((specInvalid l options ∧ f = addFailureAtNode l (FAILURE_STRING_FACTORY l)) ∨
         (specInvalid r options ∧ f = addFailureAtNode r (FAILURE_STRING_FACTORY r))) := by
  rw [mem_walk_iff]
  simp only [specInvalid_iff, isEqualityFamily_iff]

/-- C2: the Finding sequence is the concatenation, over the pre-order
node list of the tree, of each node's findings, where a binary
expression contributes its left-operand failure before its
right-operand failure; hence findings follow pre-order of the
enclosing expressions and left before right within one expression. -/
theorem C2_preorder_emission (sourceFile : SourceFile) (options : Options) :
    walk sourceFile options =
      (preorderList sourceFile.statements).flatMap (nodeFindings options) :=
  cbList_eq_preorder options sourceFile.statements

/-- C3: the expression statement null == undefined, scanned with both
allowance flags false, reports exactly two Findings: the null operand's
first, the undefined operand's second. -/
theorem C3_null_eq_undefined :
    walk ⟨[Node.otherNode
      [Node.binaryExpression (Node.nullKeyword 0 4) Op.EqualsEquals
        (Node.identifier "undefined" 8 17) 0 17] 0 18]⟩
      ⟨false, false⟩ =
    [⟨0, 4, "Comparison operand is null"⟩,
     ⟨8, 17, "Comparison operand is undefined"⟩] := by decide

/-- C4: each allowance flag suppresses exactly its own value: with
allowNull on, a == null reports nothing while a == undefined still
reports its one Finding; with allowUndefined on, a == undefined reports
nothing while a == null still reports its one Finding. -/
theorem C4_flag_independence :
    walk ⟨[Node.binaryExpression (Node.identifier "a" 0 1) Op.EqualsEquals
        (Node.nullKeyword 5 9) 0 9]⟩ ⟨true, false⟩ = [] ∧
    walk ⟨[Node.binaryExpression (Node.identifier "a" 0 1) Op.EqualsEquals
        (Node.identifier "undefined" 5 14) 0 14]⟩ ⟨true, false⟩ =
      [⟨5, 14, "Comparison operand is undefined"⟩] ∧
    walk ⟨[Node.binaryExpression (Node.identifier "a" 0 1) Op.EqualsEquals
        (Node.identifier "undefined" 5 14) 0 14]⟩ ⟨false, true⟩ = [] ∧
    walk ⟨[Node.binaryExpression (Node.identifier "a" 0 1) Op.EqualsEquals
        (Node.nullKeyword 5 9) 0 9]⟩ ⟨false, true⟩ =
      [⟨5, 9, "Comparison operand is null"⟩] := by decide

/-- C5: a binary expression whose operator is not in the equality
family contributes no finding of its own: its output is exactly the
output of its two operand subtrees. -/
theorem C5_non_equality_ignored (l r : Node) (op : Op) (p e : Nat)
    (options : Options) (h : getEqualsKind op = none) :
    cb options (Node.binaryExpression l op r p e) =
      cb options l ++ cb options r := by
  rw [cb]
  simp [h]

/-- C5 witness: a < null reports zero Findings. -/
theorem C5_witness :
    getEqualsKind Op.LessThan = none ∧
    cb ⟨false, false⟩ (Node.binaryExpression (Node.identifier "a" 0 1)
        Op.LessThan (Node.nullKeyword 4 8) 0 8) =
      cb ⟨false, false⟩ (Node.identifier "a" 0 1) ++
        cb ⟨false, false⟩ (Node.nullKeyword 4 8) :=
  ⟨rfl, C5_non_equality_ignored (Node.identifier "a" 0 1) (Node.nullKeyword 4 8)
    Op.LessThan 0 8 ⟨false, false⟩ rfl⟩

/-- C6: traversal continues into a matched expression's children: for
the statement (a == null) == b with default flags, exactly one Finding
is reported, on the inner null operand, and none on the outer
expression's operands. -/
theorem C6_nested_traversal :
    walk ⟨[Node.binaryExpression
      (Node.otherNode
        [Node.binaryExpression (Node.identifier "a" 1 2) Op.EqualsEquals
          (Node.nullKeyword 6 10) 1 10] 0 11)
      Op.EqualsEquals (Node.identifier "b" 15 16) 0 16]⟩ ⟨false, false⟩ =
    [⟨6, 10, "Comparison operand is null"⟩] := by decide

/-- C7: every emitted Finding carries the exact source span of the
offending operand node of some binary expression of the tree, and its
message is "Comparison operand is null" when that operand is the null
literal and "Comparison operand is undefined" when it is the
identifier undefined. -/
theorem C7_span_and_message (sourceFile : SourceFile) (options : Options) (f : Finding)
    (h : f ∈ walk sourceFile options) :
    ∃ l op r p e,
      Node.binaryExpression l op r p e ∈ preorderList sourceFile.statements ∧
      ∃ n, (n = l ∨ n = r) ∧
        f.pos = n.nodePos ∧ f.endPos = n.nodeEnd ∧
        ((isNullKeyword n = true ∧ f.message = "Comparison operand is null") ∨
         (isUndefinedIdentifier n = true ∧
           f.message = "Comparison operand is undefined")) := by
  rcases (mem_walk_iff sourceFile options f).mp h with ⟨l, op, r, p, e, hn, hk, hor⟩
  refine ⟨l, op, r, p, e, hn, ?_⟩
  rcases hor with ⟨hinv, rfl⟩ | ⟨hinv, rfl⟩
  · refine ⟨l, Or.inl rfl, rfl, rfl, ?_⟩
    rcases operandInvalid_shapes hinv with hN | hU
    · exact Or.inl ⟨hN, by simp [addFailureAtNode, FAILURE_STRING_FACTORY, hN]⟩
    · exact Or.inr ⟨hU, by
        simp [addFailureAtNode, FAILURE_STRING_FACTORY, not_null_of_undefined hU]⟩
  · refine ⟨r, Or.inr rfl, rfl, rfl, ?_⟩
    rcases operandInvalid_shapes hinv with hN | hU
    · exact Or.inl ⟨hN, by simp [addFailureAtNode, FAILURE_STRING_FACTORY, hN]⟩
    · exact Or.inr ⟨hU, by
        simp [addFailureAtNode, FAILURE_STRING_FACTORY, not_null_of_undefined hU]⟩

/-- C7 witness: instantiated on the statement undefined === a with
default flags and its single emitted Finding. -/
theorem C7_witness :
    ((⟨0, 9, "Comparison operand is undefined"⟩ : Finding) ∈
      walk ⟨[Node.binaryExpression (Node.identifier "undefined" 0 9)
        Op.EqualsEqualsEquals (Node.identifier "a" 14 15) 0 15]⟩ ⟨false, false⟩) ∧
    (∃ l op r p e,
      Node.binaryExpression l op r p e ∈
        preorderList [Node.binaryExpression (Node.identifier "undefined" 0 9)
          Op.EqualsEqualsEquals (Node.identifier "a" 14 15) 0 15] ∧
      ∃ n, (n = l ∨ n = r) ∧
        (⟨0, 9, "Comparison operand is undefined"⟩ : Finding).pos = n.nodePos ∧
        (⟨0, 9, "Comparison operand is undefined"⟩ : Finding).endPos = n.nodeEnd ∧
        ((isNullKeyword n = true ∧
           (⟨0, 9, "Comparison operand is undefined"⟩ : Finding).message =
             "Comparison operand is null") ∨
         (isUndefinedIdentifier n = true ∧
           (⟨0, 9, "Comparison operand is undefined"⟩ : Finding).message =
             "Comparison operand is undefined"))) :=
  ⟨by decide,
   C7_span_and_message
     ⟨[Node.binaryExpression (Node.identifier "undefined" 0 9)
       Op.EqualsEqualsEquals (Node.identifier "a" 14 15) 0 15]⟩
     ⟨false, false⟩
     ⟨0, 9, "Comparison operand is undefined"⟩
     (by decide)⟩

/-- C8: the scan is a pure function of tree and configuration: an
invocation on a fresh context produces exactly walk of the tree and
options, and an invocation started from any context state only appends
that same sequence, so no state carries across invocations and two
runs on the same inputs yield identical sequences. -/
theorem C8_deterministic (sourceFile : SourceFile) (options : Options)
    (acc : List Finding) :
    walkAcc sourceFile options [] = walk sourceFile options ∧
    walkAcc sourceFile options acc = acc ++ walk sourceFile options := by
  refine ⟨?_, cbAccList_eq options sourceFile.statements acc⟩
  rw [walkAcc, cbAccList_eq options sourceFile.statements []]
  rfl

/-- C9: the traversal enumerates each node exactly once (the pre-order
list length is the node count) and the scan returns a finite sequence
of at most two findings per node. -/
theorem C9_terminates_bounded (sourceFile : SourceFile) (options : Options) :
    (preorderList sourceFile.statements).length = nodeCountList sourceFile.statements ∧
    (walk sourceFile options).length ≤ 2 * nodeCountList sourceFile.statements :=
  ⟨preorderList_length sourceFile.statements,
   cbList_length_le options sourceFile.statements⟩

/-- C10: enabling an allowance flag only removes findings: with
allowNull on, the output is the default output with exactly the
null-message findings removed (a finding's message is the null message
exactly when its operand was the null literal); with allowUndefined
on, likewise for the undefined-message findings. Order and content of
the remaining findings are untouched. -/
theorem C10_allowance_monotone (sourceFile : SourceFile) :
    walk sourceFile ⟨true, false⟩ =
      (walk sourceFile ⟨false, false⟩).filter
        (fun f => !(f.message == "Comparison operand is null")) ∧
    walk sourceFile ⟨false, true⟩ =
      (walk sourceFile ⟨false, false⟩).filter
        (fun f => !(f.message == "Comparison operand is undefined")) := by
  constructor
  · have h1 := cbList_eq_preorder ⟨true, false⟩ sourceFile.statements
    have h2 := cbList_eq_preorder ⟨false, false⟩ sourceFile.statements
    rw [walk, walk, h1, h2, filter_flatMap_comm]
    exact congrArg _ (funext fun n => nodeFindings_allowNull false n)
  · have h1 := cbList_eq_preorder ⟨false, true⟩ sourceFile.statements
    have h2 := cbList_eq_preorder ⟨false, false⟩ sourceFile.statements
    rw [walk, walk, h1, h2, filter_flatMap_comm]
    exact congrArg _ (funext fun n => nodeFindings_allowUndefined false n)

end NoUndefinedOrNullComparison
